import Mathlib

/-!
# Verification of the template-driven field extraction engine

Shallow embedding of the core of `src/app.py` of the repository
`pdf-extraction-api_minimal`: the value normalizer `postprocess_value`
and the template extractor `extract_fields`.

Modelling conventions:
- Python `float` literals and arithmetic are modelled over `ℚ` (the
  literals 0.6, 0.8, 0.1, 1.0 are exact rationals; the claims state the
  arithmetic at this exact level).
- The Python regex engine applied to caller-supplied field patterns
  (`re.compile(pattern, re.IGNORECASE | re.MULTILINE)` followed by
  `.search(text)`) is modelled as an abstract oracle of type
  `RegexEngine`; all claims about `extract_fields` are proved for every
  oracle, hence for the real engine in particular.  The fixed literal
  regexes that occur in the source (the date sub-pattern search, the
  three confidence shape checks) are implemented directly, following
  CPython `re` semantics for those concrete patterns.
- Exceptions are modelled with `Except PyErr`; the per-field
  `try/except` of `extract_fields` catches every error.
- A Python dict with known keys is modelled as a structure; optional
  keys read with `dict.get(key, default)` become `Option` fields read
  with `Option.getD`.  Field iteration order of a dict is insertion
  order, modelled by a list of key/value pairs (keys distinct).
-/

/-- Errors raised inside the normalizer / extractor and caught by the
per-field `try/except`.  `badEscape` is the `re.error("bad escape \\p")`
that CPython (3.7+) raises when compiling the currency pattern
`r"[\p{Sc}]"`: the stdlib `re` module has no `\p{...}` Unicode property
classes.  `noneValue` stands for the `TypeError`/`AttributeError` raised
when the extracted group value is `None`. -/
inductive PyErr where
  | badEscape
  | noneValue
  deriving DecidableEq, Repr

/-- The set of characters stripped by Python `str.strip()` (the
characters for which `str.isspace()` holds), by code point: tab through
carriage return, the C0 separators 1C-1F, space, NEL, no-break space,
Ogham space mark, the U+2000 block of spaces, line separator, paragraph
separator, narrow no-break space, medium mathematical space, ideographic
space. -/
def pyIsSpace (c : Char) : Bool :=
  (c.toNat ∈ ([0x09, 0x0a, 0x0b, 0x0c, 0x0d, 0x1c, 0x1d, 0x1e, 0x1f, 0x20,
               0x85, 0xa0, 0x1680, 0x2028, 0x2029, 0x202f, 0x205f,
               0x3000] : List Nat))
  || (decide (0x2000 ≤ c.toNat) && decide (c.toNat ≤ 0x200a))

/-- Python `value.strip()`: remove leading and trailing whitespace. -/
def pyStrip (s : String) : String :=
  String.mk (((s.data.dropWhile pyIsSpace).reverse.dropWhile pyIsSpace).reverse)

/-- Python `s.zfill(width)`: left-pad with `"0"` up to `width`, keeping a
leading sign in place. -/
def pyZfill (s : String) (width : Nat) : String :=
  if width ≤ s.length then s
  else
    let pad : List Char := List.replicate (width - s.length) '0'
    match s.data with
    | c :: rest =>
        if c = '+' ∨ c = '-' then String.mk (c :: (pad ++ rest))
        else String.mk (pad ++ s.data)
    | [] => String.mk pad

/-- The Unicode decimal-digit ranges — general category Nd, Unicode
15.0 (CPython 3.12) — as pairs of first and last code point.  Python
`\d` in a `str` pattern matches exactly these characters. -/
def ndRanges : List (Nat × Nat) :=
  [(0x0030, 0x0039), (0x0660, 0x0669), (0x06F0, 0x06F9), (0x07C0, 0x07C9),
   (0x0966, 0x096F), (0x09E6, 0x09EF), (0x0A66, 0x0A6F), (0x0AE6, 0x0AEF),
   (0x0B66, 0x0B6F), (0x0BE6, 0x0BEF), (0x0C66, 0x0C6F), (0x0CE6, 0x0CEF),
   (0x0D66, 0x0D6F), (0x0DE6, 0x0DEF), (0x0E50, 0x0E59), (0x0ED0, 0x0ED9),
   (0x0F20, 0x0F29), (0x1040, 0x1049), (0x1090, 0x1099), (0x17E0, 0x17E9),
   (0x1810, 0x1819), (0x1946, 0x194F), (0x19D0, 0x19D9), (0x1A80, 0x1A89),
   (0x1A90, 0x1A99), (0x1B50, 0x1B59), (0x1BB0, 0x1BB9), (0x1C40, 0x1C49),
   (0x1C50, 0x1C59), (0xA620, 0xA629), (0xA8D0, 0xA8D9), (0xA900, 0xA909),
   (0xA9D0, 0xA9D9), (0xA9F0, 0xA9F9), (0xAA50, 0xAA59), (0xABF0, 0xABF9),
   (0xFF10, 0xFF19), (0x104A0, 0x104A9), (0x10D30, 0x10D39),
   (0x11066, 0x1106F), (0x110F0, 0x110F9), (0x11136, 0x1113F),
   (0x111D0, 0x111D9), (0x112F0, 0x112F9), (0x11450, 0x11459),
   (0x114D0, 0x114D9), (0x11650, 0x11659), (0x116C0, 0x116C9),
   (0x11730, 0x11739), (0x118E0, 0x118E9), (0x11950, 0x11959),
   (0x11C50, 0x11C59), (0x11D50, 0x11D59), (0x11DA0, 0x11DA9),
   (0x11F50, 0x11F59), (0x16A60, 0x16A69), (0x16AC0, 0x16AC9),
   (0x16B50, 0x16B59), (0x1D7CE, 0x1D7FF), (0x1E140, 0x1E149),
   (0x1E2F0, 0x1E2F9), (0x1E4F0, 0x1E4F9), (0x1E950, 0x1E959),
   (0x1FBF0, 0x1FBF9)]

/-- Python `\d` against a `str`: any Unicode decimal digit (general
category Nd), not only ASCII `0`-`9`. -/
def pyDigit (c : Char) : Bool :=
  ndRanges.any (fun r => decide (r.1 ≤ c.toNat) && decide (c.toNat ≤ r.2))

/-- Attempt of the fixed pattern `(\d{2})[/\-](\d{2})[/\-](\d{4})` at the
head of the character list: two digits, a separator `/` or `-`, two
digits, a separator, four digits.  On success returns the three capture
groups.  The pattern has no backtracking choice, so trying it at one
position is a deterministic character test. -/
def dateMatchAt : List Char → Option (String × String × String)
  | a :: b :: s1 :: c :: d :: s2 :: e :: f :: g :: h :: _ =>
      if pyDigit a && pyDigit b && (s1 == '/' || s1 == '-') &&
         pyDigit c && pyDigit d && (s2 == '/' || s2 == '-') &&
         pyDigit e && pyDigit f && pyDigit g && pyDigit h then
        some (String.mk [a, b], String.mk [c, d], String.mk [e, f, g, h])
      else none
  | _ => none

/-- Python `re.search(r"(\d{2})[/\-](\d{2})[/\-](\d{4})", value)`:
leftmost match of the date sub-pattern, with its three groups. -/
def dateSearch : List Char → Option (String × String × String)
  | [] => none
  | l@(_ :: rest) =>
      match dateMatchAt l with
      | some groups => some groups
      | none => dateSearch rest

/-- `postprocess_value(value, postprocess_type)` of `src/app.py`.
`strip` trims whitespace; `date` rewrites the first date sub-pattern
found to `f"{year}-{month.zfill(2)}-{day.zfill(2)}"` and otherwise
returns the value unchanged; `currency` executes
`re.sub(r"[\p{Sc}]", "", value)`, which raises `re.error` (bad escape
`\p`) under the stdlib `re` module before touching the value; any other
kind returns the value unchanged. -/
def postprocess_value (value : String) (ptype : String) : Except PyErr String :=
  if ptype = "strip" then
    Except.ok (pyStrip value)
  else if ptype = "date" then
    match dateSearch value.data with
    | some (month, day, year) =>
        Except.ok (year ++ "-" ++ pyZfill month 2 ++ "-" ++ pyZfill day 2)
    | none => Except.ok value
  else if ptype = "currency" then
    Except.error PyErr.badEscape
  else
    Except.ok value

/-- Character class `[A-Z0-9\-_/]` of the identifier shape check. -/
def idChar (c : Char) : Bool :=
  (decide ('A' ≤ c) && decide (c ≤ 'Z'))
  || (decide ('0' ≤ c) && decide (c ≤ '9'))
  || c == '-' || c == '_' || c == '/'

/-- Body of `^[A-Z0-9\-_/]{3,}$` up to the end anchor: at least three
characters, all in the class. -/
def idShapeCore (s : String) : Bool :=
  decide (3 ≤ s.length) && s.data.all idChar

/-- Body of `^\d{4}-\d{2}-\d{2}$` up to the end anchor. -/
def dateShapeCore (s : String) : Bool :=
  match s.data with
  | [a, b, c, d, h1, e, f, h2, g, k] =>
      pyDigit a && pyDigit b && pyDigit c && pyDigit d && h1 == '-' &&
      pyDigit e && pyDigit f && h2 == '-' && pyDigit g && pyDigit k
  | _ => false

/-- Body of `^\d+(\.\d{2})?$` up to the end anchor: a nonempty digit
string, optionally followed by a dot and exactly two digits. -/
def currencyShapeCore (s : String) : Bool :=
  match s.data.splitOn '.' with
  | [a] => !a.isEmpty && a.all pyDigit
  | [a, b] => !a.isEmpty && a.all pyDigit && (b.length == 2) && b.all pyDigit
  | _ => false

/-- Python `re.match(r"^...$", s)` for the anchored shape patterns: the
dollar anchor matches at the end of the string or just before one final
newline. -/
def pyAnchored (core : String → Bool) (s : String) : Bool :=
  core s || (s.endsWith "\n" && core (s.dropRight 1))

/-- The confidence computed in `extract_fields` for a matched field,
before the clamp `min(1.0, confidence)` applied at the point the field
is stored: base `0.8` for a pattern longer than 30 characters, else
`0.6`, plus `0.1` from the first shape check of the `if/elif` chain
that accepts the processed value. -/
def fieldConfidence (pattern : String) (processed : String) : ℚ :=
  let confidence : ℚ := if 30 < pattern.length then 0.8 else 0.6
  if pyAnchored idShapeCore processed then confidence + 0.1
  else if pyAnchored dateShapeCore processed then confidence + 0.1
  else if pyAnchored currencyShapeCore processed then confidence + 0.1
  else confidence

/-- A successful `re.Match` as observed by `extract_fields`:
`hasValue` is the test `"value" in match.groupdict()` (the pattern
defines a group named `value`); `valueGroup` is `match.group("value")`,
which is `none` when that group did not participate in the match;
`groups` is `match.groups()` (every capture group, `none` for a
non-participating group); `group0` is `match.group(0)`, the whole
match. -/
structure PyMatch where
  hasValue : Bool
  valueGroup : Option String
  groups : List (Option String)
  group0 : String

/-- Lines 141-146 of `src/app.py`: take the named group `value` if the
pattern has one, else capture group 1 if there is any group, else the
whole match.  The result can still be `none` (a group that did not
participate). -/
def extractValue (m : PyMatch) : Option String :=
  if m.hasValue then m.valueGroup
  else
    match m.groups with
    | [] => some m.group0
    | g :: _ => g

/-- Application of the normalizer to the extracted group value: a `None`
value raises (caught by the per-field `except`), otherwise
`postprocess_value` runs. -/
def applyPostprocess (value : Option String) (ptype : String) : Except PyErr String :=
  match value with
  | none => Except.error PyErr.noneValue
  | some v => postprocess_value v ptype

/-- The abstract regex engine: given the pattern source and the text, it
either raises (pattern failed to compile, or any engine-internal error)
or returns the first match, if any.  This stands for
`re.compile(pattern, re.IGNORECASE | re.MULTILINE).search(text)`. -/
def RegexEngine : Type :=
  String → String → Except PyErr (Option PyMatch)

/-- One field definition: the `pattern` key is mandatory
(`field_config["pattern"]`), while `postprocess` and `required` are read
with `field_config.get("postprocess", "strip")` and
`field_config.get("required", True)`. -/
structure FieldSpec where
  pattern : String
  postprocess : Option String := none
  required : Option Bool := none

/-- A template: `{"name": ..., "fields": {...}}`, the fields dict in
insertion order with distinct keys. -/
structure Template where
  name : String
  fields : List (String × FieldSpec)

/-- One entry of the result map: `{"value": ..., "confidence": ...}`. -/
structure ExtractionResult where
  value : String
  confidence : ℚ
  deriving DecidableEq, Repr

/-- The whole guarded body of one iteration of the field loop of
`extract_fields` (lines 134-178): `some (processed, confidence)` when
the engine finds a match, the group value is extracted, and
post-processing succeeds (`confidence` is the unclamped score);
`none` when there is no match or any step raised, which the source
treats identically via its `except` clause. -/
def tryField (engine : RegexEngine) (text : String) (cfg : FieldSpec) :
    Option (String × ℚ) :=
  match engine cfg.pattern text with
  | Except.error _ => none
  | Except.ok none => none
  | Except.ok (some m) =>
      match applyPostprocess (extractValue m) (cfg.postprocess.getD "strip") with
      | Except.error _ => none
      | Except.ok processed => some (processed, fieldConfidence cfg.pattern processed)

/-- The field loop of `extract_fields`: builds the result map (as an
ordered association list) and the list of confidences used for the
average.  On a successful match the stored confidence is
`min(1.0, confidence)` while the raw `confidence` is appended to the
averaging list, exactly as in the source. -/
def extractLoop (engine : RegexEngine) (text : String) :
    List (String × FieldSpec) → List (String × ExtractionResult) × List ℚ
  | [] => ([], [])
  | (fieldName, cfg) :: rest =>
      let tail := extractLoop engine text rest
      match tryField engine text cfg with
      | some (processed, confidence) =>
          ((fieldName, ⟨processed, min 1.0 confidence⟩) :: tail.1,
            confidence :: tail.2)
      | none =>
          if cfg.required.getD true then
            ((fieldName, ⟨"", 0.0⟩) :: tail.1, (0.0 : ℚ) :: tail.2)
          else tail

/-- `extract_fields(text, template)` of `src/app.py`: the result map and
`sum(confidences) / len(confidences) if confidences else 0.0`. -/
def extract_fields (engine : RegexEngine) (text : String) (template : Template) :
    List (String × ExtractionResult) × ℚ :=
  let (fields, confidences) := extractLoop engine text template.fields
  (fields, if confidences.isEmpty then 0.0 else confidences.sum / confidences.length)

/-- Lookup in the result map (Python dict indexing; keys are distinct). -/
def lookupField (n : String) : List (String × ExtractionResult) → Option ExtractionResult
  | [] => none
  | (k, r) :: rest => if k = n then some r else lookupField n rest

example : postprocess_value "Date: 01/15/2024" "date" = Except.ok "2024-01-15" := rfl
example : postprocess_value "  ab " "strip" = Except.ok "ab" := rfl
example : pyAnchored idShapeCore "INV-2024-001" = true := by decide
example : pyAnchored dateShapeCore "2024-01-15" = true := by decide
example : pyAnchored currencyShapeCore "1250.00" = true := by decide
example : fieldConfidence "pat" "INV-2024-001" = 0.7 := by
  have h1 : pyAnchored idShapeCore "INV-2024-001" = true := by decide
  have h2 : "pat".length = 3 := by decide
  simp [fieldConfidence, h1, h2]
  norm_num

/-! ## Normalizer lemmas -/

/-- `pyStrip` written with `List.rdropWhile`. -/
theorem pyStrip_eq (s : String) :
    pyStrip s = String.mk (List.rdropWhile pyIsSpace (List.dropWhile pyIsSpace s.data)) := by
  simp [pyStrip, List.rdropWhile]

open List in
theorem stripList_idem (p : Char → Bool) (l : List Char) :
    rdropWhile p (dropWhile p (rdropWhile p (dropWhile p l))) =
      rdropWhile p (dropWhile p l) := by
  have hA : dropWhile p (rdropWhile p (dropWhile p l)) = rdropWhile p (dropWhile p l) := by
    rw [dropWhile_eq_self_iff]
    intro hl
    have hpre : rdropWhile p (dropWhile p l) <+: dropWhile p l := rdropWhile_prefix p _
    have hlen : 0 < (dropWhile p l).length := lt_of_lt_of_le hl hpre.length_le
    have hget := hpre.get_eq (n := 0) hl
    rw [hget]
    exact dropWhile_get_zero_not p l hlen
  rw [hA, rdropWhile_idempotent]

/-- Stripping twice is the same as stripping once. -/
theorem pyStrip_idem (s : String) : pyStrip (pyStrip s) = pyStrip s := by
  rw [pyStrip_eq s, pyStrip_eq]
  exact congrArg String.mk (stripList_idem pyIsSpace s.data)

/-- The groups produced by one attempt of the date sub-pattern have the
lengths 2, 2 and 4. -/
theorem dateMatchAt_shape {l : List Char} {mo dy yr : String}
    (h : dateMatchAt l = some (mo, dy, yr)) :
    mo.length = 2 ∧ dy.length = 2 ∧ yr.length = 4 := by
  unfold dateMatchAt at h
  split at h
  · split at h
    · simp only [Option.some.injEq, Prod.mk.injEq] at h
      obtain ⟨h1, h2, h3⟩ := h
      subst h1; subst h2; subst h3
      refine ⟨rfl, rfl, rfl⟩
    · cases h
  · cases h

/-- The groups found by the date sub-pattern search have the lengths 2,
2 and 4. -/
theorem dateSearch_shape {l : List Char} {mo dy yr : String}
    (h : dateSearch l = some (mo, dy, yr)) :
    mo.length = 2 ∧ dy.length = 2 ∧ yr.length = 4 := by
  induction l with
  | nil => cases h
  | cons c rest ih =>
      rw [dateSearch] at h
      revert h
      split
      · intro h
        cases h
        exact dateMatchAt_shape (by assumption)
      · intro h
        exact ih h

/-! ## Confidence lemmas -/

/-- The confidence rule as the specification words it (spec-side
definition, compared against the code in claim C3): a base of `0.8`
when the pattern source has more than 30 characters and `0.6`
otherwise, at most one `+0.1` bonus decided by the first shape class
that matches the normalized value in the priority order identifier,
ISO date, numeric/currency, and a final clamp at `1.0`. -/
def spec_confidence (pattern : String) (processed : String) : ℚ :=
  let base : ℚ := if 30 < pattern.length then 0.8 else 0.6
  let bonus : ℚ :=
    if pyAnchored idShapeCore processed then 0.1
    else if pyAnchored dateShapeCore processed then 0.1
    else if pyAnchored currencyShapeCore processed then 0.1
    else 0
  min 1.0 (base + bonus)

theorem fieldConfidence_eq_base_add_bonus (pattern processed : String) :
    fieldConfidence pattern processed =
      (if 30 < pattern.length then (0.8 : ℚ) else 0.6) +
      (if pyAnchored idShapeCore processed then (0.1 : ℚ)
       else if pyAnchored dateShapeCore processed then 0.1
       else if pyAnchored currencyShapeCore processed then 0.1
       else 0) := by
  by_cases h1 : pyAnchored idShapeCore processed = true
  · simp [fieldConfidence, h1]
  · by_cases h2 : pyAnchored dateShapeCore processed = true
    · simp [fieldConfidence, h1, h2]
    · by_cases h3 : pyAnchored currencyShapeCore processed = true
      · simp [fieldConfidence, h1, h2, h3]
      · simp [fieldConfidence, h1, h2, h3]

theorem fieldConfidence_mem (pattern processed : String) :
    fieldConfidence pattern processed = 0.6 ∨
    fieldConfidence pattern processed = 0.6 + 0.1 ∨
    fieldConfidence pattern processed = 0.8 ∨
    fieldConfidence pattern processed = 0.8 + 0.1 := by
  rw [fieldConfidence_eq_base_add_bonus]
  by_cases hb : 30 < pattern.length <;>
    by_cases h1 : pyAnchored idShapeCore processed = true <;>
      by_cases h2 : pyAnchored dateShapeCore processed = true <;>
        by_cases h3 : pyAnchored currencyShapeCore processed = true <;>
          simp [hb, h1, h2, h3]

theorem fieldConfidence_nonneg (pattern processed : String) :
    0 ≤ fieldConfidence pattern processed := by
  rcases fieldConfidence_mem pattern processed with h | h | h | h <;> rw [h] <;> norm_num

theorem fieldConfidence_le_one (pattern processed : String) :
    fieldConfidence pattern processed ≤ 1 := by
  rcases fieldConfidence_mem pattern processed with h | h | h | h <;> rw [h] <;> norm_num

/-- The clamp applied by the source to the confidence it stores agrees
with the spec-side rule. -/
theorem min_one_fieldConfidence (pattern processed : String) :
    min 1.0 (fieldConfidence pattern processed) = spec_confidence pattern processed := by
  rw [spec_confidence, fieldConfidence_eq_base_add_bonus]

/-- The clamp never changes the value: the unclamped confidence is
already at most `1`. -/
theorem min_one_fieldConfidence_self (pattern processed : String) :
    min 1.0 (fieldConfidence pattern processed) = fieldConfidence pattern processed := by
  rcases fieldConfidence_mem pattern processed with h | h | h | h <;> rw [h] <;>
    norm_num [min_def]

/-! ## Extractor lemmas -/

/-- A successful field outcome always carries exactly the confidence
computed by the heuristic for its processed value. -/
theorem tryField_some_conf {engine : RegexEngine} {text : String} {cfg : FieldSpec}
    {v : String} {c : ℚ} (h : tryField engine text cfg = some (v, c)) :
    c = fieldConfidence cfg.pattern v := by
  unfold tryField at h
  split at h
  · cases h
  · cases h
  · split at h
    · cases h
    · simp only [Option.some.injEq, Prod.mk.injEq] at h
      obtain ⟨h1, h2⟩ := h
      subst h1; subst h2; rfl

theorem tryField_of_parts {engine : RegexEngine} {text : String} {cfg : FieldSpec}
    {m : PyMatch} {processed : String}
    (hm : engine cfg.pattern text = Except.ok (some m))
    (hp : applyPostprocess (extractValue m) (cfg.postprocess.getD "strip") =
      Except.ok processed) :
    tryField engine text cfg = some (processed, fieldConfidence cfg.pattern processed) := by
  simp only [tryField, hm, hp]

/-- A field name that does not occur in the template never occurs in
the result map. -/
theorem extractLoop_lookup_not_mem (engine : RegexEngine) (text : String) :
    ∀ (flds : List (String × FieldSpec)) (n : String),
      n ∉ flds.map Prod.fst →
      lookupField n (extractLoop engine text flds).1 = none := by
  intro flds
  induction flds with
  | nil => intro n _; rfl
  | cons head tail ih =>
      intro n hn
      obtain ⟨k, kcfg⟩ := head
      simp only [List.map_cons, List.mem_cons, not_or] at hn
      obtain ⟨hk, htail⟩ := hn
      rw [extractLoop]
      split
      · rw [lookupField, if_neg (fun h => hk h.symm)]
        exact ih n htail
      · split
        · rw [lookupField, if_neg (fun h => hk h.symm)]
          exact ih n htail
        · exact ih n htail

/-- What the result map holds at a field of the template, in terms of
the outcome of that field alone. -/
theorem extractLoop_lookup (engine : RegexEngine) (text : String) :
    ∀ (flds : List (String × FieldSpec)),
      (flds.map Prod.fst).Nodup →
      ∀ (n : String) (cfg : FieldSpec), (n, cfg) ∈ flds →
      lookupField n (extractLoop engine text flds).1 =
        (match tryField engine text cfg with
         | some (v, c) => some ⟨v, min 1.0 c⟩
         | none => if cfg.required.getD true then some ⟨"", 0.0⟩ else none) := by
  intro flds
  induction flds with
  | nil => intro _ n cfg h; cases h
  | cons head tail ih =>
      intro hnd n cfg hmem
      obtain ⟨k, kcfg⟩ := head
      simp only [List.map_cons, List.nodup_cons] at hnd
      obtain ⟨hk, hndtail⟩ := hnd
      rcases List.mem_cons.mp hmem with heq | htail
      · obtain ⟨h1, h2⟩ := Prod.mk.injEq .. ▸ heq
        subst h1; subst h2
        rw [extractLoop]
        cases htf : tryField engine text cfg with
        | some vc =>
            obtain ⟨v, c⟩ := vc
            simp only [htf]
            rw [lookupField, if_pos rfl]
        | none =>
            simp only [htf]
            split
            · rw [lookupField, if_pos rfl]
            · exact extractLoop_lookup_not_mem engine text tail n
                (fun hmm => hk (by simpa using hmm))
      · have hkn : k ≠ n := by
          intro h
          subst h
          exact hk (List.mem_map_of_mem Prod.fst htail)
        rw [extractLoop]
        split
        · rw [lookupField, if_neg hkn]
          exact ih hndtail n cfg htail
        · split
          · rw [lookupField, if_neg hkn]
            exact ih hndtail n cfg htail
          · exact ih hndtail n cfg htail

/-- The list of confidences used for the average is exactly the list of
confidences stored in the result map, in order: the clamp never changes
a stored value, so the two coincide. -/
theorem extractLoop_confidences (engine : RegexEngine) (text : String) :
    ∀ (flds : List (String × FieldSpec)),
      (extractLoop engine text flds).2 =
        (extractLoop engine text flds).1.map (fun r => r.2.confidence) := by
  intro flds
  induction flds with
  | nil => rfl
  | cons head tail ih =>
      obtain ⟨k, kcfg⟩ := head
      rw [extractLoop]
      cases htf : tryField engine text kcfg with
      | some vc =>
          obtain ⟨v, c⟩ := vc
          have hc : c = fieldConfidence kcfg.pattern v := tryField_some_conf htf
          simp only [htf, List.map_cons, ih]
          subst hc
          rw [min_one_fieldConfidence_self]
      | none =>
          simp only [htf]
          split
          · simp only [List.map_cons, ih]
          · exact ih

/-- Every confidence stored in the result map is one of the five values
the heuristic can produce. -/
theorem extractLoop_conf_values (engine : RegexEngine) (text : String) :
    ∀ (flds : List (String × FieldSpec)),
      ∀ r ∈ (extractLoop engine text flds).1,
        r.2.confidence = 0.0 ∨ r.2.confidence = 0.6 ∨ r.2.confidence = 0.6 + 0.1 ∨
        r.2.confidence = 0.8 ∨ r.2.confidence = 0.8 + 0.1 := by
  intro flds
  induction flds with
  | nil => intro r hr; cases hr
  | cons head tail ih =>
      intro r hr
      obtain ⟨k, kcfg⟩ := head
      rw [extractLoop] at hr
      cases htf : tryField engine text kcfg with
      | some vc =>
          obtain ⟨v, c⟩ := vc
          rw [htf] at hr
          have hr2 : r ∈ ((k, (⟨v, min 1.0 c⟩ : ExtractionResult)) ::
              (extractLoop engine text tail).1) := hr
          rcases List.mem_cons.mp hr2 with heq | htail
          · subst heq
            have hc : c = fieldConfidence kcfg.pattern v := tryField_some_conf htf
            subst hc
            rw [show ((k, (⟨v, min 1.0 (fieldConfidence kcfg.pattern v)⟩ :
                  ExtractionResult))).2.confidence =
                min 1.0 (fieldConfidence kcfg.pattern v) from rfl,
              min_one_fieldConfidence_self]
            rcases fieldConfidence_mem kcfg.pattern v with h | h | h | h <;>
              rw [h] <;> norm_num
          · exact ih r htail
      | none =>
          rw [htf] at hr
          by_cases hreq : kcfg.required.getD true = true
          · rw [if_pos hreq] at hr
            have hr2 : r ∈ ((k, (⟨"", 0.0⟩ : ExtractionResult)) ::
                (extractLoop engine text tail).1) := hr
            rcases List.mem_cons.mp hr2 with heq | htail
            · subst heq
              left
              rfl
            · exact ih r htail
          · rw [if_neg hreq] at hr
            exact ih r hr

theorem extract_fields_fst (engine : RegexEngine) (text : String) (template : Template) :
    (extract_fields engine text template).1 =
      (extractLoop engine text template.fields).1 := rfl

theorem extract_fields_snd (engine : RegexEngine) (text : String) (template : Template) :
    (extract_fields engine text template).2 =
      (if (extractLoop engine text template.fields).2.isEmpty then 0.0
       else (extractLoop engine text template.fields).2.sum /
         ((extractLoop engine text template.fields).2.length : ℚ)) := rfl

theorem extractLoop_conf_bounds (engine : RegexEngine) (text : String)
    (flds : List (String × FieldSpec)) :
    ∀ c ∈ (extractLoop engine text flds).2, 0 ≤ c ∧ c ≤ 1 := by
  intro c hc
  rw [extractLoop_confidences] at hc
  obtain ⟨r, hr, hcr⟩ := List.mem_map.mp hc
  subst hcr
  rcases extractLoop_conf_values engine text flds r hr with h | h | h | h | h <;>
    rw [h] <;> norm_num

/-! ## Claims -/

/-- C1: the claim says the normalizer is a pure, total function that
never fails.  The code contradicts it: for the `currency` kind,
`re.sub(r"[\p\x7bSc\x7d]", "", value)` raises `re.error` (bad escape
`\p`) under the stdlib `re` module, for every input value.  This
theorem evaluates the embedded code at the failing input. -/
theorem C1_currency_normalization_raises :
    postprocess_value "$1,250.00" "currency" = Except.error PyErr.badEscape := rfl

/-- C2: for every regex-engine behaviour, text and template,
`extract_fields` is a total function (it is a Lean function) and the
returned average confidence lies in `[0, 1]`. -/
theorem C2_extract_total (engine : RegexEngine) (text : String) (template : Template) :
    0 ≤ (extract_fields engine text template).2 ∧
      (extract_fields engine text template).2 ≤ 1 := by
  rw [extract_fields_snd]
  by_cases h : (extractLoop engine text template.fields).2.isEmpty
  · rw [if_pos h]
    norm_num
  · rw [if_neg h]
    have hb := extractLoop_conf_bounds engine text template.fields
    have hlen : 0 < (extractLoop engine text template.fields).2.length := by
      cases hC : (extractLoop engine text template.fields).2 with
      | nil => rw [hC] at h; simp at h
      | cons a l => simp
    have hsum0 : 0 ≤ (extractLoop engine text template.fields).2.sum :=
      List.sum_nonneg (fun x hx => (hb x hx).1)
    have hsum1 : (extractLoop engine text template.fields).2.sum ≤
        ((extractLoop engine text template.fields).2.length : ℚ) := by
      have hh := List.sum_le_card_nsmul (extractLoop engine text template.fields).2 1
        (fun x hx => (hb x hx).2)
      simpa using hh
    constructor
    · exact div_nonneg hsum0 (Nat.cast_nonneg _)
    · rw [div_le_one (by exact_mod_cast hlen)]
      exact hsum1

/-- C3: for a field of the template whose pattern matches and whose
value extraction and post-processing succeed, the stored confidence is
exactly the spec rule `min 1 (base + bonus)` with base `0.8` when the
pattern source has more than 30 characters and `0.6` otherwise, a
single non-stacking `+0.1` bonus decided by the first matching shape
class in the order identifier, ISO date, numeric/currency, and a final
value never above `1`. -/
theorem C3_matched_confidence (engine : RegexEngine) (text : String)
    (template : Template) (hnd : (template.fields.map Prod.fst).Nodup)
    (n : String) (cfg : FieldSpec) (hmem : (n, cfg) ∈ template.fields)
    (m : PyMatch) (hm : engine cfg.pattern text = Except.ok (some m))
    (processed : String)
    (hp : applyPostprocess (extractValue m) (cfg.postprocess.getD "strip") =
      Except.ok processed) :
    lookupField n (extract_fields engine text template).1 =
      some ⟨processed, spec_confidence cfg.pattern processed⟩
    ∧ spec_confidence cfg.pattern processed ≤ 1 := by
  have htf := tryField_of_parts hm hp
  have hl := extractLoop_lookup engine text template.fields hnd n cfg hmem
  rw [htf] at hl
  have hl2 : lookupField n (extractLoop engine text template.fields).1 =
      some ⟨processed, min 1.0 (fieldConfidence cfg.pattern processed)⟩ := hl
  constructor
  · rw [extract_fields_fst, hl2, min_one_fieldConfidence]
  · rw [← min_one_fieldConfidence]
    exact le_trans (min_le_left _ _) (by norm_num)

/-- C4: for a field of the template whose pattern does not match
(`tryField ... = none` covers the three source paths: the engine found
no match, the engine raised, or value extraction / post-processing
raised): a required field is stored as the empty placeholder with
confidence `0.0`, an optional field is absent from the result map; and
the averaging list is exactly the list of stored confidences, so the
placeholder `0.0` is counted and an omitted field contributes
nothing. -/
theorem C4_missing_field (engine : RegexEngine) (text : String)
    (template : Template) (hnd : (template.fields.map Prod.fst).Nodup)
    (n : String) (cfg : FieldSpec) (hmem : (n, cfg) ∈ template.fields)
    (hmiss : tryField engine text cfg = none) :
    (cfg.required.getD true = true →
      lookupField n (extract_fields engine text template).1 = some ⟨"", 0.0⟩)
    ∧ (cfg.required.getD true = false →
      lookupField n (extract_fields engine text template).1 = none)
    ∧ (extractLoop engine text template.fields).2 =
      (extract_fields engine text template).1.map (fun r => r.2.confidence) := by
  have hl := extractLoop_lookup engine text template.fields hnd n cfg hmem
  rw [hmiss] at hl
  have hl2 : lookupField n (extractLoop engine text template.fields).1 =
      (if cfg.required.getD true = true then some ⟨"", 0.0⟩ else none) := hl
  refine ⟨?_, ?_, ?_⟩
  · intro hreq
    rw [extract_fields_fst, hl2, if_pos hreq]
  · intro hreq
    rw [extract_fields_fst, hl2, hreq]
    simp
  · rw [extract_fields_fst]
    exact extractLoop_confidences engine text template.fields

/-- C5: the returned average equals the arithmetic mean of the
confidences stored in the result map (fields omitted from the map
contribute nothing), and equals `0.0` when the map is empty. -/
theorem C5_average (engine : RegexEngine) (text : String) (template : Template) :
    (extract_fields engine text template).2 =
      (if (extract_fields engine text template).1.isEmpty then 0.0
       else ((extract_fields engine text template).1.map
          (fun r => r.2.confidence)).sum /
         (((extract_fields engine text template).1.length : ℚ))) := by
  rw [extract_fields_snd, extract_fields_fst, extractLoop_confidences]
  simp

/-- C6: for a field of the template whose pattern matches, the raw
value handed to the normalizer is chosen with the precedence named
group `value`, then capture group 1, then the whole match (the three
final conjuncts), and the stored value is the normalizer output for the
field's declared post-processing kind. -/
theorem C6_value_extraction (engine : RegexEngine) (text : String)
    (template : Template) (hnd : (template.fields.map Prod.fst).Nodup)
    (n : String) (cfg : FieldSpec) (hmem : (n, cfg) ∈ template.fields)
    (m : PyMatch) (hm : engine cfg.pattern text = Except.ok (some m))
    (raw processed : String) (hraw : extractValue m = some raw)
    (hp : postprocess_value raw (cfg.postprocess.getD "strip") = Except.ok processed) :
    lookupField n (extract_fields engine text template).1 =
      some ⟨processed, min 1.0 (fieldConfidence cfg.pattern processed)⟩
    ∧ (m.hasValue = true → extractValue m = m.valueGroup)
    ∧ (m.hasValue = false → m.groups = [] → extractValue m = some m.group0)
    ∧ (∀ g gs, m.hasValue = false → m.groups = g :: gs → extractValue m = g) := by
  have hap : applyPostprocess (extractValue m) (cfg.postprocess.getD "strip") =
      Except.ok processed := by
    rw [hraw]
    exact hp
  have htf := tryField_of_parts hm hap
  have hl := extractLoop_lookup engine text template.fields hnd n cfg hmem
  rw [htf] at hl
  have hl2 : lookupField n (extractLoop engine text template.fields).1 =
      some ⟨processed, min 1.0 (fieldConfidence cfg.pattern processed)⟩ := hl
  refine ⟨?_, ?_, ?_, ?_⟩
  · rw [extract_fields_fst, hl2]
  · intro h
    simp [extractValue, h]
  · intro h1 h2
    simp [extractValue, h1, h2]
  · intro g gs h1 h2
    simp [extractValue, h1, h2]

/-- C7: the claim says `Normalize("$1,250.00", "currency")` returns
`"1250.00"`.  The code instead raises: the currency branch compiles the
pattern `[\p\x7bSc\x7d]`, rejected by the stdlib `re` module (bad
escape `\p`). -/
theorem C7_currency_roundtrip_fails :
    postprocess_value "$1,250.00" "currency" ≠ Except.ok "1250.00" := by
  simp [postprocess_value]

/-- C8: date normalization rewrites the first
two-digit/two-digit/four-digit sub-pattern to `YYYY-MM-DD`, taking the
first group as month and the second as day, and returns any raw value
without such a sub-pattern unchanged. -/
theorem C8_date_normalization :
    postprocess_value "Date: 01/15/2024" "date" = Except.ok "2024-01-15"
    ∧ (∀ v mo dy yr, dateSearch v.data = some (mo, dy, yr) →
        postprocess_value v "date" = Except.ok (yr ++ "-" ++ mo ++ "-" ++ dy))
    ∧ (∀ v, dateSearch v.data = none → postprocess_value v "date" = Except.ok v) := by
  refine ⟨rfl, ?_, ?_⟩
  · intro v mo dy yr h
    obtain ⟨hmo, hdy, _⟩ := dateSearch_shape h
    have z1 : pyZfill mo 2 = mo := by
      unfold pyZfill
      rw [if_pos (by omega)]
    have z2 : pyZfill dy 2 = dy := by
      unfold pyZfill
      rw [if_pos (by omega)]
    unfold postprocess_value
    rw [if_neg (by decide), if_pos rfl, h]
    show Except.ok (yr ++ "-" ++ pyZfill mo 2 ++ "-" ++ pyZfill dy 2) = _
    rw [z1, z2]
  · intro v h
    unfold postprocess_value
    rw [if_neg (by decide), if_pos rfl, h]

/-- C9, counterexample to the claim as stated: `currency` normalization
applied to the already-stripped numeric string `"1250.00"` is not a
no-op — it raises (bad escape `\p`) instead of returning the value. -/
theorem C9_currency_not_noop :
    postprocess_value "1250.00" "currency" ≠ Except.ok "1250.00" := by
  simp [postprocess_value]

/-- C9, amended: the `strip` half of the claim holds — stripping an
already-stripped value returns it unchanged (strip is idempotent). -/
theorem C9_strip_idempotent (v s : String)
    (h : postprocess_value v "strip" = Except.ok s) :
    postprocess_value s "strip" = Except.ok s := by
  have hv : postprocess_value v "strip" = Except.ok (pyStrip v) := rfl
  rw [hv] at h
  have hs : s = pyStrip v := by
    cases h
    rfl
  subst hs
  have : postprocess_value (pyStrip v) "strip" = Except.ok (pyStrip (pyStrip v)) := rfl
  rw [this, pyStrip_idem]

/-- C10: every confidence stored in the result map is one of `0.0`,
`0.6`, `0.6 + 0.1`, `0.8`, `0.8 + 0.1`; the unclamped score of a
successful field never exceeds `1`, so the clamp stores it unchanged;
and the averaging list is exactly the list of stored confidences. -/
theorem C10_confidence_values (engine : RegexEngine) (text : String)
    (template : Template) :
    (∀ r ∈ (extract_fields engine text template).1,
        r.2.confidence = 0.0 ∨ r.2.confidence = 0.6 ∨
        r.2.confidence = 0.6 + 0.1 ∨ r.2.confidence = 0.8 ∨
        r.2.confidence = 0.8 + 0.1)
    ∧ (∀ (cfg : FieldSpec) (v : String) (c : ℚ),
        tryField engine text cfg = some (v, c) → c ≤ 1 ∧ min 1.0 c = c)
    ∧ (extractLoop engine text template.fields).2 =
        (extract_fields engine text template).1.map (fun r => r.2.confidence) := by
  refine ⟨?_, ?_, ?_⟩
  · intro r hr
    rw [extract_fields_fst] at hr
    exact extractLoop_conf_values engine text template.fields r hr
  · intro cfg v c h
    have hc := tryField_some_conf h
    subst hc
    exact ⟨fieldConfidence_le_one _ _, min_one_fieldConfidence_self _ _⟩
  · rw [extract_fields_fst]
    exact extractLoop_confidences engine text template.fields

/-! ## Witnesses: concrete engines, matches and templates -/

/-- An engine behaviour that reports the same match everywhere. -/
def constMatchEngine (m : PyMatch) : RegexEngine :=
  fun _ _ => Except.ok (some m)

/-- An engine behaviour that never finds a match. -/
def noMatchEngine : RegexEngine :=
  fun _ _ => Except.ok none

def wMatch : PyMatch := ⟨true, some "INV-001", [], "Invoice No: INV-001"⟩

def wMatch2 : PyMatch := ⟨false, none, [some "G1"], "full match"⟩

def wFieldA : FieldSpec := ⟨"IN(?P<value>[A-Z0-9-]+)", some "strip", some true⟩

def wTemplateA : Template := ⟨"t1", [("invoice_number", wFieldA)]⟩

def wFieldB1 : FieldSpec := ⟨"pa", none, some true⟩

def wFieldB2 : FieldSpec := ⟨"pb", none, some false⟩

def wTemplateB : Template := ⟨"t2", [("amount", wFieldB1), ("note", wFieldB2)]⟩

def wFieldC : FieldSpec := ⟨"p1", none, some true⟩

def wTemplateC : Template := ⟨"t3", [("field1", wFieldC)]⟩

theorem C3_matched_confidence_witness :
    lookupField "invoice_number"
        (extract_fields (constMatchEngine wMatch) "doc" wTemplateA).1 =
      some ⟨"INV-001", spec_confidence "IN(?P<value>[A-Z0-9-]+)" "INV-001"⟩
    ∧ spec_confidence "IN(?P<value>[A-Z0-9-]+)" "INV-001" ≤ 1 :=
  C3_matched_confidence (constMatchEngine wMatch) "doc" wTemplateA (by decide)
    "invoice_number" wFieldA (List.mem_singleton.mpr rfl) wMatch rfl "INV-001" rfl

theorem C4_missing_field_witness :
    lookupField "amount" (extract_fields noMatchEngine "doc" wTemplateB).1 =
      some ⟨"", 0.0⟩ :=
  (C4_missing_field noMatchEngine "doc" wTemplateB (by decide) "amount"
    wFieldB1 (List.mem_cons_self _ _) rfl).1 rfl

theorem C6_value_extraction_witness :
    lookupField "field1"
        (extract_fields (constMatchEngine wMatch2) "doc" wTemplateC).1 =
      some ⟨"G1", min 1.0 (fieldConfidence "p1" "G1")⟩ :=
  (C6_value_extraction (constMatchEngine wMatch2) "doc" wTemplateC (by decide)
    "field1" wFieldC (List.mem_singleton.mpr rfl) wMatch2 rfl "G1" "G1" rfl rfl).1

theorem C8_date_normalization_witness :
    postprocess_value "no digits here" "date" = Except.ok "no digits here" :=
  C8_date_normalization.2.2 "no digits here" (by decide)

theorem C9_strip_idempotent_witness :
    postprocess_value "ab" "strip" = Except.ok "ab" :=
  C9_strip_idempotent "  ab " "ab" rfl

theorem C10_confidence_values_witness :
    (extractLoop noMatchEngine "doc" wTemplateB.fields).2 =
      (extract_fields noMatchEngine "doc" wTemplateB).1.map
        (fun r => r.2.confidence) :=
  (C10_confidence_values noMatchEngine "doc" wTemplateB).2.2
